import Mathlib

/-!
Verification of the koota ECS core against its specification.

The development shallowly embeds the two source files under scrutiny:

* `src/packages/core/src/trait/utils/create-accessors.ts` — the generated
  per-schema store accessors (`createSetFunction`,
  `createFastSetWithChangeDetectionFunction`, `createGetFunction`);
* `src/packages/core/src/world/world.ts` — the `World` class (init, reset,
  destroy, query caching, world-entity delegation).

Code of the repository that those files call but that is not itself part of
the analysed sources (entity index, entity creation, component registration,
`Query.run`, query hashing, the universe of worlds) is modelled from the
specification; every such definition carries a doc comment starting with
`Modelled from the spec:`.
-/

namespace Koota

/-! ## Column-store accessors (`create-accessors.ts`)

A trait schema is embedded as the list of its field names, in the order
`Object.keys(schema)` yields them.  A column store is a function from field
name and row index to the stored value; JavaScript `!==` on stored values is
modelled by decidable equality on the value type. -/

/-- A column store: one dense array per field, indexed by row. -/
def Store (V : Type) : Type := String → Nat → V

/-- Write one slot of a column store. -/
def updateStore {V : Type} (st : Store V) (k : String) (i : Nat) (v : V) :
    Store V :=
  fun k2 i2 => if k2 = k ∧ i2 = i then v else st k2 i2

/-- The function generated by `createSetFunction`: for each schema key `k`,
`if ('k' in value) store.k[index] = value.k`.  A partial value record is a
function from field name to `Option V` (`none` = field absent). -/
def setFunction {V : Type} (keys : List String) (index : Nat)
    (store : Store V) (value : String → Option V) : Store V :=
  keys.foldl
    (fun st k =>
      match value k with
      | some x => updateStore st k index x
      | none => st)
    store

/-- The function generated by `createFastSetWithChangeDetectionFunction`:
for each schema key `k`, `if (store.k[index] !== value.k) { store.k[index] =
value.k; changed = true; }`, returning the final store and the `changed`
flag.  The value record here is total, as the generated code reads
`value.k` unconditionally. -/
def fastSetWithChangeDetection {V : Type} [DecidableEq V]
    (keys : List String) (index : Nat) (store : Store V)
    (value : String → V) : Store V × Bool :=
  keys.foldl
    (fun p k =>
      if p.1 k index = value k then p
      else (updateStore p.1 k index (value k), true))
    (store, false)

/-- The function generated by `createGetFunction`: the object literal
`{ k1: store.k1[index], ..., kn: store.kn[index] }`, embedded as an
association list over the schema keys. -/
def getFunction {V : Type} (keys : List String) (index : Nat)
    (store : Store V) : List (String × V) :=
  keys.map fun k => (k, store k index)

/-- First-match lookup in an association list (the map/object access used
throughout the embedding). -/
def lookupA {α β : Type} [DecidableEq α] : List (α × β) → α → Option β
  | [], _ => none
  | (a, b) :: rest, k => if k = a then some b else lookupA rest k

@[simp] theorem lookupA_nil {α β : Type} [DecidableEq α] (k : α) :
    lookupA ([] : List (α × β)) k = none := rfl

@[simp] theorem lookupA_cons {α β : Type} [DecidableEq α] (a : α) (b : β)
    (rest : List (α × β)) (k : α) :
    lookupA ((a, b) :: rest) k = if k = a then some b else lookupA rest k :=
  rfl

theorem updateStore_apply {V : Type} (st : Store V) (k : String) (i : Nat)
    (v : V) (k2 : String) (i2 : Nat) :
    updateStore st k i v k2 i2 = if k2 = k ∧ i2 = i then v else st k2 i2 :=
  rfl

/-- Slot-level description of `setFunction`: a slot is written exactly when
its key is a schema key, its row is the target row, and the value record
contains the key; otherwise it keeps its previous content. -/
theorem setFunction_apply {V : Type} (keys : List String) (index : Nat)
    (store : Store V) (value : String → Option V) (k : String) (i : Nat) :
    setFunction keys index store value k i =
      if k ∈ keys ∧ i = index then (value k).getD (store k i)
      else store k i := by
  induction keys generalizing store with
  | nil => simp [setFunction]
  | cons k0 ks ih =>
    have hfold :
        setFunction (k0 :: ks) index store value k i =
          setFunction ks index
            (match value k0 with
              | some x => updateStore store k0 index x
              | none => store) value k i := by
      simp [setFunction]
    rw [hfold, ih]
    by_cases hk0 : k = k0
    · subst hk0
      have hstep :
          (match value k with
            | some x => updateStore store k index x
            | none => store) k i =
            if i = index then (value k).getD (store k i) else store k i := by
        cases hv : value k with
        | none => by_cases hi : i = index <;> simp [hi]
        | some x =>
          by_cases hi : i = index <;> simp [updateStore, hi]
      rw [hstep]
      by_cases hi : i = index
      · by_cases hks : k ∈ ks
        · simp only [hi, hks, and_true, if_pos, List.mem_cons, true_or,
            if_true, if_pos trivial]
          cases value k <;> simp
        · simp [hi, hks]
      · simp [hi]
    · have hstep :
          (match value k0 with
            | some x => updateStore store k0 index x
            | none => store) k i = store k i := by
        cases value k0 with
        | none => rfl
        | some x => simp [updateStore, hk0]
      rw [hstep]
      simp [List.mem_cons, hk0]

theorem fastSet_store_apply {V : Type} [DecidableEq V] (keys : List String)
    (index : Nat) (value : String → V) (st : Store V) (b : Bool)
    (k : String) (i : Nat) :
    (keys.foldl
      (fun p k2 =>
        if p.1 k2 index = value k2 then p
        else (updateStore p.1 k2 index (value k2), true))
      (st, b)).1 k i =
      if k ∈ keys ∧ i = index then value k else st k i := by
  induction keys generalizing st b with
  | nil => simp
  | cons k0 ks ih =>
    rw [List.foldl_cons]
    have hpair :
        (if st k0 index = value k0 then (st, b)
          else (updateStore st k0 index (value k0), true)) =
          ((fun k2 i2 => if k2 = k0 ∧ i2 = index then value k0 else st k2 i2),
            if st k0 index = value k0 then b else true) := by
      by_cases he : st k0 index = value k0
      · rw [if_pos he, if_pos he]
        refine Prod.ext ?_ rfl
        funext k2 i2
        by_cases hc : k2 = k0 ∧ i2 = index
        · obtain ⟨h1, h2⟩ := hc
          subst h1
          subst h2
          simp [he]
        · simp [hc]
      · rw [if_neg he, if_neg he]
        rfl
    rw [hpair, ih]
    by_cases hk0 : k = k0
    · subst hk0
      by_cases hi : i = index
      · by_cases hks : k ∈ ks <;> simp [hks, hi]
      · simp [hi]
    · simp [List.mem_cons, hk0]

theorem fastSet_flag {V : Type} [DecidableEq V] (keys : List String)
    (index : Nat) (value : String → V) (st : Store V) (b : Bool) :
    (keys.foldl
      (fun p k2 =>
        if p.1 k2 index = value k2 then p
        else (updateStore p.1 k2 index (value k2), true))
      (st, b)).2 =
      (b || keys.any fun k => decide (st k index ≠ value k)) := by
  induction keys generalizing st b with
  | nil => simp
  | cons k0 ks ih =>
    rw [List.foldl_cons]
    by_cases he : st k0 index = value k0
    · rw [if_pos he, ih]
      simp [he]
    · rw [if_neg he, ih]
      simp [he]

/-- C2. `createFastSetWithChangeDetectionFunction` produces a function that
(1) returns `true` exactly when some schema field's stored value at the
target row differed from the value's field before the call, (2) leaves every
schema field's slot at that row equal to the value's field (and every other
slot untouched), and (3) therefore returns `false` when applied a second
time with the same value immediately afterwards. -/
theorem fastSetWithChangeDetection_spec {V : Type} [DecidableEq V]
    (keys : List String) (index : Nat) (store : Store V)
    (value : String → V) :
    ((fastSetWithChangeDetection keys index store value).2 =
        keys.any fun k => decide (store k index ≠ value k)) ∧
      (∀ k i, (fastSetWithChangeDetection keys index store value).1 k i =
        if k ∈ keys ∧ i = index then value k else store k i) ∧
      (fastSetWithChangeDetection keys index
          (fastSetWithChangeDetection keys index store value).1 value).2 =
        false := by
  refine ⟨?_, ?_, ?_⟩
  · rw [fastSetWithChangeDetection, fastSet_flag]
    simp
  · intro k i
    rw [fastSetWithChangeDetection, fastSet_store_apply]
  · rw [fastSetWithChangeDetection, fastSetWithChangeDetection, fastSet_flag]
    simp only [Bool.false_or, List.any_eq_true, not_exists, decide_eq_true_eq]
    rw [Bool.eq_false_iff]
    intro hc
    obtain ⟨k, hk, hne⟩ := List.any_eq_true.mp hc
    rw [fastSet_store_apply] at hne
    simp only [hk, and_true, if_pos trivial, decide_eq_true_eq] at hne
    · exact hne rfl

theorem getFunction_lookup {V : Type} (keys : List String) (index : Nat)
    (store : Store V) (k : String) :
    lookupA (getFunction keys index store) k =
      if k ∈ keys then some (store k index) else none := by
  induction keys with
  | nil => simp [getFunction]
  | cons k0 ks ih =>
    simp only [getFunction, List.map_cons, lookupA_cons] at *
    by_cases hk0 : k = k0
    · subst hk0
      simp
    · simp only [hk0, if_false, ih, List.mem_cons, hk0, false_or]

/-- C3. Reading a row with the function generated by `createGetFunction`
right after writing it with the function generated by `createSetFunction`
yields, for every schema field, the written field when the partial value
contains it and the previously stored field otherwise — i.e. the prior
record merged with the partial value (fields outside the schema are not part
of the returned record). -/
theorem get_after_set {V : Type} (keys : List String) (index : Nat)
    (store : Store V) (value : String → Option V) (k : String) :
    lookupA (getFunction keys index (setFunction keys index store value)) k =
      if k ∈ keys then some ((value k).getD (store k index)) else none := by
  rw [getFunction_lookup]
  by_cases hk : k ∈ keys
  · rw [if_pos hk, if_pos hk, setFunction_apply]
    simp [hk]
  · rw [if_neg hk, if_neg hk]

/-- C4. Frame property of the function generated by `createSetFunction`:
a store slot changes only at the target row, only for schema keys, and only
when the value record contains that key (`(value k).getD (store k i)`
collapses to `store k i` when the field is absent); fields of the value
outside the schema are never read, so restricting the value to the schema
keys yields the same store. -/
theorem setFunction_frame {V : Type} (keys : List String) (index : Nat)
    (store : Store V) (value : String → Option V) :
    (∀ k i, setFunction keys index store value k i =
        if k ∈ keys ∧ i = index then (value k).getD (store k i)
        else store k i) ∧
      setFunction keys index store value =
        setFunction keys index store
          (fun k => if k ∈ keys then value k else none) := by
  constructor
  · intro k i
    exact setFunction_apply keys index store value k i
  · funext k i
    rw [setFunction_apply, setFunction_apply]
    by_cases hk : k ∈ keys ∧ i = index
    · rw [if_pos hk, if_pos hk, if_pos hk.1]
    · rw [if_neg hk, if_neg hk]

/-! ## The `World` class (`world.ts`)

Traits are global values with stable identity; following the spec's design
note ("assign every trait a stable globally-unique id"), a component is
embedded as its id.  Entities are row indices (the generation and world-id
fields of the packed 32-bit handle play no role in the claims below and are
not modelled).  JavaScript `Map`/`Set` objects become association lists and
lists. -/

/-- A trait, identified by its globally unique id. -/
abbrev Component := Nat

/-- Modelled from the spec: the hidden "excluded" tag carried by the
distinguished world entity (`IsExcluded` from `query.ts`, not under
`src/`). -/
def IsExcluded : Component := 0

/-- Modelled from the spec (§4.1): the per-world generational entity index.
Only the alive set, the free list and the next fresh row are needed by the
claims; generations are not. -/
structure EntityIndex where
  worldId : Nat
  aliveList : List Nat
  freeRows : List Nat
  maxRow : Nat
deriving DecidableEq

/-- Modelled from the spec: a fresh entity index has no alive entities. -/
def createEntityIndex (wid : Nat) : EntityIndex :=
  { worldId := wid, aliveList := [], freeRows := [], maxRow := 0 }

/-- Modelled from the spec (§4.1 `allocate`): pop a free row if any, else
append a new one; record the row as alive. -/
def allocateEntity (idx : EntityIndex) : EntityIndex × Nat :=
  match idx.freeRows with
  | r :: rest =>
    ({ idx with freeRows := rest, aliveList := idx.aliveList ++ [r] }, r)
  | [] =>
    ({ idx with
        maxRow := idx.maxRow + 1,
        aliveList := idx.aliveList ++ [idx.maxRow] }, idx.maxRow)

/-- Modelled from the spec (§4.1 `free`): mark the row dead and push it onto
the free list. -/
def freeEntity (idx : EntityIndex) (e : Nat) : EntityIndex :=
  { idx with aliveList := idx.aliveList.erase e, freeRows := e :: idx.freeRows }

/-- Modelled from the spec (§4.1 `isAlive`). -/
def isEntityAlive (idx : EntityIndex) (e : Nat) : Bool :=
  decide (e ∈ idx.aliveList)

/-- Modelled from the spec (§4.1 `aliveEntities`). -/
def getAliveEntities (idx : EntityIndex) : List Nat :=
  idx.aliveList

/-- Modelled from the spec (§4.2): the per-world registry entry of a trait;
only the assigned bitflag is needed here (the column store is modelled by
the world-level `traitData` map). -/
structure CompRecord where
  bitflag : Nat
deriving DecidableEq

/-- A cached query: its canonical parameter vector and an id standing in for
JavaScript object identity.  Parameters are embedded as the ids of the
required traits (modifier structure is outside the analysed sources). -/
structure Query where
  id : Nat
  parameters : List Nat
deriving DecidableEq

/-- Modelled from the spec (§4.4 Hashing): the parameter list is
canonicalized (stable ordering) and hashed to a string key; semantically
equal queries hash equal. -/
def createQueryHash (ps : List Nat) : String :=
  toString (ps.mergeSort (fun a b => decide (a ≤ b)))

/-- The `[$internal]` context of a `World` (world.ts, lines 27–42), with the
column stores of all records flattened into `traitData` and a counter
providing fresh `Query` identities. -/
structure WorldCtx where
  entityIndex : EntityIndex
  entityMasks : List (List Nat)
  entityComponents : List (Nat × List Component)
  bitflag : Nat
  componentRecords : List (Component × CompRecord)
  traitData : List ((Nat × Component) × Int)
  queries : List Query
  queriesHashMap : List (String × Query)
  notQueries : List Query
  dirtyQueries : List Query
  relationTargetEntities : List Nat
  dirtyMasks : List (Nat × List (List Nat))
  trackingSnapshots : List (Nat × List (List Nat))
  changedMasks : List (Nat × List (List Nat))
  worldEntity : Option Nat
  nextQueryId : Nat
deriving DecidableEq

/-- The `World` class: id, private `#isInitialized` flag, public
`components` set and internal context. -/
structure World where
  id : Nat
  isInitialized : Bool
  components : List Component
  ctx : WorldCtx
deriving DecidableEq

/-- The process-wide world index (`world-index.ts`, not under `src/`).
Modelled from the spec: a numbering with a free list. -/
structure WorldIndex where
  freeIds : List Nat
  nextId : Nat
deriving DecidableEq

/-- Modelled from the spec: allocate a world id from the free list, else the
next fresh one. -/
def allocateWorldId (wi : WorldIndex) : WorldIndex × Nat :=
  match wi.freeIds with
  | i :: rest => ({ wi with freeIds := rest }, i)
  | [] => ({ wi with nextId := wi.nextId + 1 }, wi.nextId)

/-- Modelled from the spec: release a world id back to the free list. -/
def releaseWorldId (wi : WorldIndex) (i : Nat) : WorldIndex :=
  { wi with freeIds := i :: wi.freeIds }

/-- The process-wide `universe` (`universe.ts`, not under `src/`).  Modelled
from the spec: the registered world ids, the world index, the cross-world
cached query templates and the tracking cursor. -/
structure Universe where
  worlds : List Nat
  worldIndex : WorldIndex
  cachedQueries : List (String × List Nat)
  trackingCursor : Nat
deriving DecidableEq

/-! ### Masks and component registration -/

/-- Read word `i` of a mask word list (JavaScript holes read as 0). -/
def getWordAt (l : List Nat) (i : Nat) : Nat :=
  l.getD i 0

/-- OR a bit pattern into position `i` of a word list, zero-extending as
JavaScript sparse arrays do. -/
def padOrAux : List Nat → Nat → Nat → List Nat
  | l, 0, v => (l.headD 0 ||| v) :: l.tail
  | l, i + 1, v => l.headD 0 :: padOrAux l.tail i v

/-- Clear a bit pattern at position `i` of a word list. -/
def padClearAux : List Nat → Nat → Nat → List Nat
  | l, 0, v => (l.headD 0 - (l.headD 0 &&& v)) :: l.tail
  | l, i + 1, v => l.headD 0 :: padClearAux l.tail i v

/-- Set an entity's mask bit.  The embedding keeps a single mask word (no
claim exercises the 32-trait rollover). -/
def maskOr (masks : List (List Nat)) (e : Nat) (b : Nat) :
    List (List Nat) :=
  padOrAux (masks.headD []) e b :: masks.tail

/-- Clear an entity's mask bit. -/
def maskClear (masks : List (List Nat)) (e : Nat) (b : Nat) :
    List (List Nat) :=
  padClearAux (masks.headD []) e b :: masks.tail

/-- Insert-or-update in an association list (JavaScript `Map.set`). -/
def updateA {α β : Type} [DecidableEq α] :
    List (α × β) → α → β → List (α × β)
  | [], k, v => [(k, v)]
  | (a, b) :: rest, k, v =>
    if k = a then (k, v) :: rest else (a, b) :: updateA rest k v

/-- Remove a key from an association list (JavaScript `Map.delete`). -/
def removeA {α β : Type} [DecidableEq α] :
    List (α × β) → α → List (α × β)
  | [], _ => []
  | (a, b) :: rest, k =>
    if k = a then removeA rest k else (a, b) :: removeA rest k

/-- Modelled from the spec (§4.2): on first use of a trait in a world,
assign it the next free bitflag, record the registry entry, and add it to
the world's public component set; later uses return the existing entry. -/
def registerComponent (w : World) (c : Component) : World × CompRecord :=
  match lookupA w.ctx.componentRecords c with
  | some r => (w, r)
  | none =>
    let r : CompRecord := { bitflag := w.ctx.bitflag }
    ({ w with
        components :=
          if c ∈ w.components then w.components else w.components ++ [c],
        ctx := { w.ctx with
          componentRecords := (c, r) :: w.ctx.componentRecords,
          bitflag := w.ctx.bitflag * 2 } }, r)

/-- The mask-bit test of `hasComponent`, over explicit record and mask
state. -/
def hasIn (records : List (Component × CompRecord))
    (masks : List (List Nat)) (e : Nat) (c : Component) : Bool :=
  match lookupA records c with
  | none => false
  | some r => decide (getWordAt (masks.headD []) e &&& r.bitflag ≠ 0)

/-- Whether an entity carries a trait: the trait is registered and its
bitflag is set in the entity's mask word. -/
def hasComponent (w : World) (e : Nat) (c : Component) : Bool :=
  hasIn w.ctx.componentRecords w.ctx.entityMasks e c

/-- Modelled from the spec (§4.3 `add`): register the trait if needed; if
the entity already carries it the operation is a no-op for membership;
otherwise set the mask bit, record the component on the entity, and mark
the bit in every tracker's dirty layer. -/
def entAdd (w0 : World) (e : Nat) (c : Component) : World :=
  let p := registerComponent w0 c
  if hasComponent p.1 e c then p.1
  else
    { p.1 with ctx := { p.1.ctx with
        entityMasks := maskOr p.1.ctx.entityMasks e p.2.bitflag,
        entityComponents := updateA p.1.ctx.entityComponents e
          (((lookupA p.1.ctx.entityComponents e).getD []) ++ [c]),
        dirtyMasks := p.1.ctx.dirtyMasks.map
          (fun q => (q.1, maskOr q.2 e p.2.bitflag)) } }

/-- Modelled from the spec (§4.3 `remove`): no-op when the bit is unset;
otherwise clear the bit, drop the component from the entity, and mark the
trackers' dirty layers. -/
def entRemove (w : World) (e : Nat) (c : Component) : World :=
  match lookupA w.ctx.componentRecords c with
  | none => w
  | some r =>
    if hasComponent w e c then
      { w with ctx := { w.ctx with
          entityMasks := maskClear w.ctx.entityMasks e r.bitflag,
          entityComponents := updateA w.ctx.entityComponents e
            (((lookupA w.ctx.entityComponents e).getD []).erase c),
          dirtyMasks := w.ctx.dirtyMasks.map
            (fun q => (q.1, maskOr q.2 e r.bitflag)) } }
    else w

/-- Modelled from the spec (§4.3 `set`): field-wise assignment with change
detection; on a change, mark the trait's bit in every tracker's changed
layer.  The record's fields are collapsed to a single `Int` value. -/
def entSet (w : World) (e : Nat) (c : Component) (v : Int) : World :=
  match lookupA w.ctx.componentRecords c with
  | none => w
  | some r =>
    if lookupA w.ctx.traitData (e, c) = some v then w
    else
      { w with ctx := { w.ctx with
          traitData := updateA w.ctx.traitData (e, c) v,
          changedMasks := w.ctx.changedMasks.map
            (fun q => (q.1, maskOr q.2 e r.bitflag)) } }

/-- Modelled from the spec: read an entity's stored record for a trait. -/
def entGet (w : World) (e : Nat) (c : Component) : Option Int :=
  lookupA w.ctx.traitData (e, c)

/-- Modelled from the spec (`createEntity` in `entity.ts`, not under
`src/`): allocate a row from the world's entity index and add each given
component to it. -/
def createEntity (w : World) (cs : List Component) : World × Nat :=
  let p := allocateEntity w.ctx.entityIndex
  (cs.foldl (fun acc c => entAdd acc p.2 c)
    { w with ctx := { w.ctx with entityIndex := p.1 } }, p.2)

/-- Modelled from the spec (§4.3 `destroy`): run remove semantics for every
trait the entity carries, drop its component set, and free its row. -/
def destroyEntity (w : World) (e : Nat) : World :=
  let cs := (lookupA w.ctx.entityComponents e).getD []
  let w1 := cs.foldl (fun acc c => entRemove acc e c) w
  { w1 with ctx := { w1.ctx with
      entityIndex := freeEntity w1.ctx.entityIndex e,
      entityComponents := removeA w1.ctx.entityComponents e } }

/-! ### Queries and the `World` operations (world.ts) -/

/-- Modelled from the spec (§4.4, tie-breaks): `Query.run` returns the live
entities matching the query's parameters; results exclude any entity
carrying the hidden `IsExcluded` tag. -/
def queryRun (q : Query) (w : World) : List Nat :=
  (getAliveEntities w.ctx.entityIndex).filter
    (fun e =>
      (q.parameters.all fun c => hasComponent w e c) &&
        !hasComponent w e IsExcluded)

/-- The parameter overload of the `query` function (world.ts, lines
223–233): hash the parameters, reuse the cached `Query` when present,
otherwise construct one (the constructor registers it with the world — code
outside `src/`, modelled from the spec) and store it under the hash, then
return its run result. -/
def worldQuery (w : World) (ps : List Nat) : World × List Nat :=
  match lookupA w.ctx.queriesHashMap (createQueryHash ps) with
  | some q => (w, queryRun q w)
  | none =>
    let q : Query := { id := w.ctx.nextQueryId, parameters := ps }
    let w2 : World :=
      { w with ctx := { w.ctx with
          queriesHashMap :=
            (createQueryHash ps, q) :: w.ctx.queriesHashMap,
          queries := q :: w.ctx.queries,
          nextQueryId := w.ctx.nextQueryId + 1 } }
    (w2, queryRun q w2)

/-- The string-key overload of the `query` function (world.ts, lines
219–222): return the cached query's run result, or the empty array when no
query is cached under the key. -/
def worldQueryKey (w : World) (key : String) : World × List Nat :=
  match lookupA w.ctx.queriesHashMap key with
  | none => (w, [])
  | some q => (w, queryRun q w)

/-- `query.subscribe` (world.ts, lines 167–180): find or create the cached
query for the parameters.  The callback set itself is not modelled
(functions carry no decidable identity); only the cache effect is. -/
def worldSubscribe (w : World) (ps : List Nat) : World :=
  match lookupA w.ctx.queriesHashMap (createQueryHash ps) with
  | some _ => w
  | none =>
    let q : Query := { id := w.ctx.nextQueryId, parameters := ps }
    { w with ctx := { w.ctx with
        queriesHashMap := (createQueryHash ps, q) :: w.ctx.queriesHashMap,
        queries := q :: w.ctx.queries,
        nextQueryId := w.ctx.nextQueryId + 1 } }

/-- Modelled from the spec (§3 Tracking Masks): create the snapshot, dirty
and changed layers for tracker `i`. -/
def setTrackingMasks (w : World) (i : Nat) : World :=
  { w with ctx := { w.ctx with
      trackingSnapshots := updateA w.ctx.trackingSnapshots i w.ctx.entityMasks,
      dirtyMasks := updateA w.ctx.dirtyMasks i [[]],
      changedMasks := updateA w.ctx.changedMasks i [[]] } }

/-- One step of the cached-query loop in `World.init` (world.ts, lines
77–80): construct a `Query` for the template's parameters and store it
under the template's hash. -/
def addCachedQuery (w : World) (hash : String) (ps : List Nat) : World :=
  let q : Query := { id := w.ctx.nextQueryId, parameters := ps }
  { w with ctx := { w.ctx with
      queriesHashMap := (hash, q) :: w.ctx.queriesHashMap,
      queries := q :: w.ctx.queries,
      nextQueryId := w.ctx.nextQueryId + 1 } }

/-- The state of an uninitialized world after the flag assignment, the
tracking-mask loop and the cached-query loop of `World.init` (world.ts,
lines 67–80), just before the world entity is created. -/
def initW3 (u : Universe) (w : World) : World :=
  u.cachedQueries.foldl (fun acc p => addCachedQuery acc p.1 p.2)
    ((List.range u.trackingCursor).foldl (fun acc i => setTrackingMasks acc i)
      { w with isInitialized := true })

/-- The body of `World.init` on an uninitialized world: register the world
with the universe, run the tracking and cached-query loops, and create the
world entity carrying `IsExcluded` plus the given components (world.ts,
lines 66–86). -/
def initBody (u : Universe) (w : World) (cs : List Component) :
    Universe × World :=
  ({ u with worlds :=
      if w.id ∈ u.worlds then u.worlds else u.worlds ++ [w.id] },
    { (createEntity (initW3 u w) (IsExcluded :: cs)).1 with
        ctx := { (createEntity (initW3 u w) (IsExcluded :: cs)).1.ctx with
          worldEntity :=
            some (createEntity (initW3 u w) (IsExcluded :: cs)).2 } })

/-- `World.init` (world.ts, lines 63–87): a no-op on an initialized world;
otherwise mark the world initialized, register it with the universe, create
the tracking masks up to the tracking cursor, instantiate the universe's
cached queries, and create the world entity carrying `IsExcluded` plus the
given components. -/
def World.init (u : Universe) (w : World) (cs : List Component) :
    Universe × World :=
  if w.isInitialized then (u, w) else initBody u w cs

/-- The fresh internal context a `World` starts from (world.ts, lines
27–42). -/
def emptyCtx (wid : Nat) : WorldCtx :=
  { entityIndex := createEntityIndex wid
    entityMasks := [[]]
    entityComponents := []
    bitflag := 1
    componentRecords := []
    traitData := []
    queries := []
    queriesHashMap := []
    notQueries := []
    dirtyQueries := []
    relationTargetEntities := []
    dirtyMasks := []
    trackingSnapshots := []
    changedMasks := []
    worldEntity := none
    nextQueryId := 0 }

/-- The `World` constructor (`createWorld`): allocate a world id and run
`init`. -/
def World.new (u : Universe) (cs : List Component) : Universe × World :=
  let p := allocateWorldId u.worldIndex
  let base : World :=
    { id := p.2, isInitialized := false, components := [], ctx := emptyCtx p.2 }
  World.init { u with worldIndex := p.1 } base cs

/-- `World.reset` (world.ts, lines 135–160): replace the entity index,
clear the per-world state in source order (the `entities.forEach(destroy)`
loop runs on the already-fresh index and is therefore vacuous), and create
a new world entity carrying `IsExcluded`. -/
def World.reset (w : World) : World :=
  let w1 : World :=
    { w with
        components := w.components,
        ctx := { w.ctx with
          entityIndex := createEntityIndex w.id,
          entityComponents := [],
          notQueries := [],
          entityMasks := [[]],
          bitflag := 1 } }
  let w2 : World :=
    (getAliveEntities w1.ctx.entityIndex).foldl
      (fun acc e => destroyEntity acc e) w1
  let w3 : World :=
    { w2 with
        components := [],
        ctx := { w2.ctx with
          componentRecords := [],
          traitData := [],
          queries := [],
          queriesHashMap := [],
          dirtyQueries := [],
          relationTargetEntities := [],
          trackingSnapshots := [],
          dirtyMasks := [],
          changedMasks := [] } }
  let p := createEntity w3 [IsExcluded]
  { p.1 with ctx := { p.1.ctx with worldEntity := some p.2 } }

/-- `World.destroy` (world.ts, lines 122–133): destroy all alive entities,
reset, drop the initialized flag, release the world id, remove the world
from the universe's world list, and destroy the (freshly recreated) world
entity, leaving `worldEntity` null. -/
def World.destroy (u : Universe) (w : World) : Universe × World :=
  let w1 : World :=
    (getAliveEntities w.ctx.entityIndex).foldl
      (fun acc e => destroyEntity acc e) w
  let w2 : World := World.reset w1
  let w3 : World := { w2 with isInitialized := false }
  let u2 : Universe :=
    { u with
        worldIndex := releaseWorldId u.worldIndex w.id,
        worlds := u.worlds.erase w.id }
  let w4 : World :=
    match w3.ctx.worldEntity with
    | some we => destroyEntity w3 we
    | none => w3
  (u2, { w4 with ctx := { w4.ctx with worldEntity := none } })

/-! ### World-entity delegation (world.ts, lines 93–115)

`world.add/remove/get/set` and the component overload of `world.has`
delegate to the distinguished world entity; the entity overload of
`world.has` checks aliveness in the world's entity index.  The `typeof
target === 'number'` dispatch of `has` is embedded as a sum type, since in
the source entities are numbers and traits are objects. -/

/-- The argument of `world.has`: an entity (a number) or a trait. -/
inductive HasArg where
  | ent (e : Nat)
  | comp (c : Component)

/-- `world.has` (world.ts, lines 93–99). -/
def World.hasW (w : World) : HasArg → Bool
  | .ent e => isEntityAlive w.ctx.entityIndex e
  | .comp c =>
    match w.ctx.worldEntity with
    | some we => hasComponent w we c
    | none => false

/-- `world.add` (world.ts, lines 101–103), for a single trait. -/
def World.addW (w : World) (c : Component) : World :=
  match w.ctx.worldEntity with
  | some we => entAdd w we c
  | none => w

/-- `world.remove` (world.ts, lines 105–107), for a single trait. -/
def World.removeW (w : World) (c : Component) : World :=
  match w.ctx.worldEntity with
  | some we => entRemove w we c
  | none => w

/-- `world.get` (world.ts, lines 109–111). -/
def World.getW (w : World) (c : Component) : Option Int :=
  match w.ctx.worldEntity with
  | some we => entGet w we c
  | none => none

/-- `world.set` (world.ts, lines 113–115). -/
def World.setW (w : World) (c : Component) (v : Int) : World :=
  match w.ctx.worldEntity with
  | some we => entSet w we c v
  | none => w

/-- `world.spawn` (world.ts, lines 89–91). -/
def World.spawnW (w : World) (cs : List Component) : World × Nat :=
  createEntity w cs

/-! ### The operations a client can apply to a world

Used to state that cached queries survive every operation other than
`reset` (and `destroy`, whose clearing consists of its internal call to
`World.reset`). -/

/-- One world operation of the public facade. -/
inductive Op where
  | spawn (cs : List Component)
  | addC (c : Component)
  | removeC (c : Component)
  | setC (c : Component) (v : Int)
  | query (ps : List Nat)
  | queryKey (s : String)
  | subscribe (ps : List Nat)
  | reset
  | destroy

/-- Apply one facade operation to a universe and world. -/
def applyOp (u : Universe) (w : World) : Op → Universe × World
  | .spawn cs => (u, (World.spawnW w cs).1)
  | .addC c => (u, World.addW w c)
  | .removeC c => (u, World.removeW w c)
  | .setC c v => (u, World.setW w c v)
  | .query ps => (u, (worldQuery w ps).1)
  | .queryKey s => (u, (worldQueryKey w s).1)
  | .subscribe ps => (u, worldSubscribe w ps)
  | .reset => (u, World.reset w)
  | .destroy => World.destroy u w

/-! ### Concrete instances used by the witnesses -/

/-- An empty universe. -/
def u0 : Universe :=
  { worlds := [], worldIndex := { freeIds := [], nextId := 0 },
    cachedQueries := [], trackingCursor := 0 }

/-- The universe after creating one world. -/
def u1 : Universe := (World.new u0 []).1

/-- A freshly created (initialized) world. -/
def w0 : World := (World.new u0 []).2

/-- A fresh world object before its `init` call. -/
def base0 : World :=
  { id := 0, isInitialized := false, components := [], ctx := emptyCtx 0 }

/-! ### Helper lemmas: bits, words and association lists -/

theorem exists_testBit_of_ne_zero {a : Nat} (h : a ≠ 0) :
    ∃ i, a.testBit i = true := by
  by_contra hc
  push_neg at hc
  refine h (Nat.eq_of_testBit_eq fun i => ?_)
  rw [Nat.zero_testBit]
  exact Bool.eq_false_iff.mpr (hc i)

theorem or_and_ne_zero_left {a c : Nat} (b : Nat) (h : a &&& c ≠ 0) :
    (a ||| b) &&& c ≠ 0 := by
  obtain ⟨i, hi⟩ := exists_testBit_of_ne_zero h
  rw [Nat.testBit_and, Bool.and_eq_true] at hi
  intro hc0
  have hbit : ((a ||| b) &&& c).testBit i = false := by
    rw [hc0]
    exact Nat.zero_testBit i
  rw [Nat.testBit_and, Nat.testBit_or, hi.1, hi.2] at hbit
  simp at hbit

theorem or_and_ne_zero_right {b c : Nat} (a : Nat) (h : b &&& c ≠ 0) :
    (a ||| b) &&& c ≠ 0 := by
  obtain ⟨i, hi⟩ := exists_testBit_of_ne_zero h
  rw [Nat.testBit_and, Bool.and_eq_true] at hi
  intro hc0
  have hbit : ((a ||| b) &&& c).testBit i = false := by
    rw [hc0]
    exact Nat.zero_testBit i
  rw [Nat.testBit_and, Nat.testBit_or, hi.1, hi.2] at hbit
  simp at hbit

theorem getWordAt_tail (l : List Nat) (j : Nat) :
    getWordAt l.tail j = getWordAt l (j + 1) := by
  cases l <;> rfl

theorem getWordAt_headD (l : List Nat) : getWordAt l 0 = l.headD 0 := by
  cases l <;> rfl

theorem padOr_get (i : Nat) : ∀ (l : List Nat) (v j : Nat),
    getWordAt (padOrAux l i v) j =
      if j = i then getWordAt l j ||| v else getWordAt l j := by
  induction i with
  | zero =>
    intro l v j
    cases j with
    | zero =>
      rw [if_pos rfl, padOrAux]
      rw [show getWordAt ((l.headD 0 ||| v) :: l.tail) 0 = l.headD 0 ||| v from rfl,
        getWordAt_headD]
    | succ j2 =>
      rw [if_neg (Nat.succ_ne_zero j2), padOrAux]
      rw [show getWordAt ((l.headD 0 ||| v) :: l.tail) (j2 + 1) =
        getWordAt l.tail j2 from rfl, getWordAt_tail]
  | succ i2 ih =>
    intro l v j
    cases j with
    | zero =>
      rw [if_neg (Nat.succ_ne_zero i2).symm, padOrAux]
      rw [show getWordAt (l.headD 0 :: padOrAux l.tail i2 v) 0 =
        l.headD 0 from rfl, getWordAt_headD]
    | succ j2 =>
      rw [padOrAux]
      rw [show getWordAt (l.headD 0 :: padOrAux l.tail i2 v) (j2 + 1) =
        getWordAt (padOrAux l.tail i2 v) j2 from rfl, ih]
      rw [getWordAt_tail]
      by_cases hj : j2 = i2
      · rw [if_pos hj, if_pos (by rw [hj])]
      · rw [if_neg hj, if_neg (fun hc => hj (Nat.succ_injective hc))]

theorem lookupA_mem {α β : Type} [DecidableEq α] {l : List (α × β)} {k : α}
    {b : β} (h : lookupA l k = some b) : (k, b) ∈ l := by
  induction l with
  | nil => simp at h
  | cons p rest ih =>
    obtain ⟨a, v⟩ := p
    rw [lookupA_cons] at h
    by_cases hk : k = a
    · rw [if_pos hk] at h
      subst hk
      injection h with h2
      subst h2
      exact List.mem_cons_self _ _
    · rw [if_neg hk] at h
      exact List.mem_cons_of_mem _ (ih h)

/-! ### Registration and mask lemmas -/

/-- Bitflag well-formedness: the world's next bitflag and every assigned
bitflag are non-zero (as in the source, where bitflags are powers of two).
Stated over the record list so that it is decidable on concrete worlds. -/
def WFBitflags (w : World) : Prop :=
  w.ctx.bitflag ≠ 0 ∧ ∀ p ∈ w.ctx.componentRecords, p.2.bitflag ≠ 0

theorem hasIn_maskOr (records : List (Component × CompRecord))
    (masks : List (List Nat)) (e2 b e : Nat) (c : Component)
    (h : hasIn records masks e c = true) :
    hasIn records (maskOr masks e2 b) e c = true := by
  unfold hasIn at h ⊢
  cases hl : lookupA records c with
  | none => rw [hl] at h; simp at h
  | some r =>
    rw [hl] at h
    simp only [decide_eq_true_eq] at h ⊢
    rw [show (maskOr masks e2 b).headD [] =
      padOrAux (masks.headD []) e2 b from rfl]
    rw [padOr_get]
    by_cases he : e = e2
    · rw [if_pos he]
      exact or_and_ne_zero_left b h
    · rw [if_neg he]
      exact h

theorem hasIn_cons_fresh (records : List (Component × CompRecord))
    (masks : List (List Nat)) (e : Nat) (c c2 : Component) (r : CompRecord)
    (hnone : lookupA records c2 = none)
    (h : hasIn records masks e c = true) :
    hasIn ((c2, r) :: records) masks e c = true := by
  unfold hasIn at h ⊢
  cases hl : lookupA records c with
  | none => rw [hl] at h; simp at h
  | some rc =>
    rw [hl] at h
    have hne : c ≠ c2 := by
      intro hc
      rw [hc, hnone] at hl
      exact absurd hl (by simp)
    rw [lookupA_cons, if_neg hne, hl]
    exact h

theorem registerComponent_masks (w : World) (c : Component) :
    (registerComponent w c).1.ctx.entityMasks = w.ctx.entityMasks := by
  unfold registerComponent
  cases lookupA w.ctx.componentRecords c <;> rfl

theorem registerComponent_records (w : World) (c : Component) :
    (registerComponent w c).1.ctx.componentRecords =
      match lookupA w.ctx.componentRecords c with
      | some _ => w.ctx.componentRecords
      | none =>
        (c, { bitflag := w.ctx.bitflag }) :: w.ctx.componentRecords := by
  unfold registerComponent
  cases lookupA w.ctx.componentRecords c <;> rfl

theorem registerComponent_snd (w : World) (c : Component) :
    (registerComponent w c).2 =
      match lookupA w.ctx.componentRecords c with
      | some r => r
      | none => { bitflag := w.ctx.bitflag } := by
  unfold registerComponent
  cases lookupA w.ctx.componentRecords c <;> rfl

theorem registerComponent_lookup (w : World) (c : Component) :
    lookupA (registerComponent w c).1.ctx.componentRecords c =
      some (registerComponent w c).2 := by
  rw [registerComponent_records, registerComponent_snd]
  cases hl : lookupA w.ctx.componentRecords c with
  | none => simp
  | some r => exact hl

theorem registerComponent_flag_nz (w : World) (c : Component)
    (hwf : WFBitflags w) : (registerComponent w c).2.bitflag ≠ 0 := by
  rw [registerComponent_snd]
  cases hl : lookupA w.ctx.componentRecords c with
  | none => exact hwf.1
  | some r => exact hwf.2 _ (lookupA_mem hl)

theorem hasComponent_registerComponent (w : World) (e : Nat)
    (c c2 : Component) (h : hasComponent w e c = true) :
    hasComponent (registerComponent w c2).1 e c = true := by
  unfold hasComponent at h ⊢
  rw [registerComponent_masks, registerComponent_records]
  cases hl : lookupA w.ctx.componentRecords c2 with
  | some r => exact h
  | none => exact hasIn_cons_fresh _ _ _ _ _ _ hl h

/-- Adding a trait to any entity never removes a trait an entity already
carries. -/
theorem hasComponent_entAdd_mono (w : World) (e e2 : Nat)
    (c c2 : Component) (h : hasComponent w e c = true) :
    hasComponent (entAdd w e2 c2) e c = true := by
  have h1 : hasComponent (registerComponent w c2).1 e c = true :=
    hasComponent_registerComponent w e c c2 h
  show hasIn (entAdd w e2 c2).ctx.componentRecords
    (entAdd w e2 c2).ctx.entityMasks e c = true
  by_cases hif : hasComponent (registerComponent w c2).1 e2 c2 = true
  · rw [show entAdd w e2 c2 = (registerComponent w c2).1 by
      unfold entAdd
      rw [if_pos hif]]
    exact h1
  · rw [show entAdd w e2 c2 = { (registerComponent w c2).1 with
      ctx := { (registerComponent w c2).1.ctx with
        entityMasks := maskOr (registerComponent w c2).1.ctx.entityMasks e2
          (registerComponent w c2).2.bitflag,
        entityComponents := updateA
          (registerComponent w c2).1.ctx.entityComponents e2
          (((lookupA (registerComponent w c2).1.ctx.entityComponents
            e2).getD []) ++ [c2]),
        dirtyMasks := (registerComponent w c2).1.ctx.dirtyMasks.map
          (fun q => (q.1, maskOr q.2 e2
            (registerComponent w c2).2.bitflag)) } } by
      unfold entAdd
      rw [if_neg hif]]
    exact hasIn_maskOr _ _ _ _ _ _ h1

/-- Adding a trait to an entity makes the entity carry it (given well-formed
bitflags). -/
theorem hasComponent_entAdd_self (w : World) (e : Nat) (c : Component)
    (hwf : WFBitflags w) : hasComponent (entAdd w e c) e c = true := by
  by_cases hif : hasComponent (registerComponent w c).1 e c = true
  · rw [show entAdd w e c = (registerComponent w c).1 by
      unfold entAdd
      rw [if_pos hif]]
    exact hif
  · rw [show entAdd w e c = { (registerComponent w c).1 with
      ctx := { (registerComponent w c).1.ctx with
        entityMasks := maskOr (registerComponent w c).1.ctx.entityMasks e
          (registerComponent w c).2.bitflag,
        entityComponents := updateA
          (registerComponent w c).1.ctx.entityComponents e
          (((lookupA (registerComponent w c).1.ctx.entityComponents
            e).getD []) ++ [c]),
        dirtyMasks := (registerComponent w c).1.ctx.dirtyMasks.map
          (fun q => (q.1, maskOr q.2 e
            (registerComponent w c).2.bitflag)) } } by
      unfold entAdd
      rw [if_neg hif]]
    show hasIn (registerComponent w c).1.ctx.componentRecords
      (maskOr (registerComponent w c).1.ctx.entityMasks e
        (registerComponent w c).2.bitflag) e c = true
    unfold hasIn
    rw [registerComponent_lookup]
    simp only [decide_eq_true_eq]
    rw [show (maskOr (registerComponent w c).1.ctx.entityMasks e
      (registerComponent w c).2.bitflag).headD [] =
      padOrAux ((registerComponent w c).1.ctx.entityMasks.headD []) e
        (registerComponent w c).2.bitflag from rfl]
    rw [padOr_get, if_pos rfl]
    refine or_and_ne_zero_right _ ?_
    rw [Nat.and_self]
    exact registerComponent_flag_nz w c hwf

/-! ### Frame lemmas: fields untouched by the entity mutators -/

theorem foldl_preserves {α β : Type} (f : World → α → World)
    (proj : World → β) (h : ∀ w a, proj (f w a) = proj w) :
    ∀ (l : List α) (w : World), proj (l.foldl f w) = proj w := by
  intro l
  induction l with
  | nil => intro w; rfl
  | cons a as ih =>
    intro w
    rw [List.foldl_cons, ih, h]

theorem registerComponent_frame (w : World) (c : Component) :
    (registerComponent w c).1.ctx.queriesHashMap = w.ctx.queriesHashMap ∧
      (registerComponent w c).1.ctx.queries = w.ctx.queries ∧
      (registerComponent w c).1.ctx.entityIndex = w.ctx.entityIndex ∧
      (registerComponent w c).1.id = w.id ∧
      (registerComponent w c).1.isInitialized = w.isInitialized ∧
      (registerComponent w c).1.ctx.worldEntity = w.ctx.worldEntity ∧
      (registerComponent w c).1.ctx.nextQueryId = w.ctx.nextQueryId := by
  unfold registerComponent
  cases lookupA w.ctx.componentRecords c <;>
    exact ⟨rfl, rfl, rfl, rfl, rfl, rfl, rfl⟩

theorem entAdd_frame (w : World) (e : Nat) (c : Component) :
    (entAdd w e c).ctx.queriesHashMap = w.ctx.queriesHashMap ∧
      (entAdd w e c).ctx.queries = w.ctx.queries ∧
      (entAdd w e c).ctx.entityIndex = w.ctx.entityIndex ∧
      (entAdd w e c).id = w.id ∧
      (entAdd w e c).isInitialized = w.isInitialized ∧
      (entAdd w e c).ctx.worldEntity = w.ctx.worldEntity ∧
      (entAdd w e c).ctx.nextQueryId = w.ctx.nextQueryId := by
  simp only [entAdd]
  split
  · exact registerComponent_frame w c
  · exact registerComponent_frame w c

theorem entRemove_frame (w : World) (e : Nat) (c : Component) :
    (entRemove w e c).ctx.queriesHashMap = w.ctx.queriesHashMap ∧
      (entRemove w e c).id = w.id ∧
      (entRemove w e c).isInitialized = w.isInitialized ∧
      (entRemove w e c).ctx.nextQueryId = w.ctx.nextQueryId := by
  unfold entRemove
  cases lookupA w.ctx.componentRecords c with
  | none => exact ⟨rfl, rfl, rfl, rfl⟩
  | some r =>
    by_cases hif : hasComponent w e c = true
    · simp [hif]
    · simp [hif]

theorem entSet_frame (w : World) (e : Nat) (c : Component) (v : Int) :
    (entSet w e c v).ctx.queriesHashMap = w.ctx.queriesHashMap ∧
      (entSet w e c v).id = w.id ∧
      (entSet w e c v).isInitialized = w.isInitialized := by
  unfold entSet
  cases lookupA w.ctx.componentRecords c with
  | none => exact ⟨rfl, rfl, rfl⟩
  | some r =>
    by_cases hif : lookupA w.ctx.traitData (e, c) = some v
    · simp [hif]
    · simp [hif]

theorem destroyEntity_frame (w : World) (e : Nat) :
    (destroyEntity w e).ctx.queriesHashMap = w.ctx.queriesHashMap ∧
      (destroyEntity w e).id = w.id ∧
      (destroyEntity w e).isInitialized = w.isInitialized ∧
      (destroyEntity w e).ctx.nextQueryId = w.ctx.nextQueryId := by
  unfold destroyEntity
  refine ⟨?_, ?_, ?_, ?_⟩
  · exact foldl_preserves _ (fun w2 => w2.ctx.queriesHashMap)
      (fun w2 c => (entRemove_frame w2 e c).1) _ w
  · exact foldl_preserves _ (fun w2 => w2.id)
      (fun w2 c => (entRemove_frame w2 e c).2.1) _ w
  · exact foldl_preserves _ (fun w2 => w2.isInitialized)
      (fun w2 c => (entRemove_frame w2 e c).2.2.1) _ w
  · exact foldl_preserves _ (fun w2 => w2.ctx.nextQueryId)
      (fun w2 c => (entRemove_frame w2 e c).2.2.2) _ w

theorem createEntity_qmap (w : World) (cs : List Component) :
    (createEntity w cs).1.ctx.queriesHashMap = w.ctx.queriesHashMap := by
  unfold createEntity
  exact foldl_preserves _ (fun w2 => w2.ctx.queriesHashMap)
    (fun w2 c => (entAdd_frame w2 _ c).1) _ _

theorem WF_transport {w w2 : World}
    (hb : w2.ctx.bitflag = w.ctx.bitflag)
    (hr : w2.ctx.componentRecords = w.ctx.componentRecords)
    (hwf : WFBitflags w) : WFBitflags w2 := by
  constructor
  · rw [hb]
    exact hwf.1
  · rw [hr]
    exact hwf.2

theorem hasComponent_foldl_entAdd (cs : List Component) (w : World)
    (e e2 : Nat) (c : Component) (h : hasComponent w e c = true) :
    hasComponent (cs.foldl (fun acc c2 => entAdd acc e2 c2) w) e c
      = true := by
  induction cs generalizing w with
  | nil => exact h
  | cons c0 cs2 ih =>
    rw [List.foldl_cons]
    exact ih _ (hasComponent_entAdd_mono w e e2 c c0 h)

/-- The entity created by `createEntity` carries the first component of the
list (given well-formed bitflags). -/
theorem createEntity_has_head (w : World) (c : Component)
    (cs : List Component) (hwf : WFBitflags w) :
    hasComponent (createEntity w (c :: cs)).1 (createEntity w (c :: cs)).2 c
      = true := by
  show hasComponent
    ((c :: cs).foldl
      (fun acc c2 => entAdd acc (allocateEntity w.ctx.entityIndex).2 c2)
      { w with ctx := { w.ctx with
          entityIndex := (allocateEntity w.ctx.entityIndex).1 } })
    (allocateEntity w.ctx.entityIndex).2 c = true
  rw [List.foldl_cons]
  refine hasComponent_foldl_entAdd cs _ _ _ c ?_
  refine hasComponent_entAdd_self _ _ c ?_
  exact WF_transport rfl rfl hwf

theorem hasComponent_set_worldEntity (w : World) (oe : Option Nat) (e : Nat)
    (c : Component) :
    hasComponent { w with ctx := { w.ctx with worldEntity := oe } } e c =
      hasComponent w e c := rfl

/-- An entity carrying the excluded tag is never in a query's run result. -/
theorem queryRun_excluded (w : World) (q : Query) (we : Nat)
    (h : hasComponent w we IsExcluded = true) : we ∉ queryRun q w := by
  intro hmem
  unfold queryRun at hmem
  have h2 := (List.mem_filter.mp hmem).2
  rw [h] at h2
  simp at h2

/-- The complete observable state right after `World.reset`: the id and the
initialization flag are untouched, the query caches, trackers and relation
state are empty, and the rest of the state is exactly what creating the new
world entity carrying `IsExcluded` leaves behind (the `IsExcluded`
registration consumes bitflag 1). -/
theorem reset_post (w : World) :
    (World.reset w).id = w.id ∧
      (World.reset w).isInitialized = w.isInitialized ∧
      (World.reset w).ctx.queriesHashMap = [] ∧
      (World.reset w).ctx.queries = [] ∧
      (World.reset w).ctx.dirtyQueries = [] ∧
      (World.reset w).ctx.notQueries = [] ∧
      (World.reset w).ctx.relationTargetEntities = [] ∧
      (World.reset w).ctx.trackingSnapshots = [] ∧
      (World.reset w).ctx.dirtyMasks = [] ∧
      (World.reset w).ctx.changedMasks = [] ∧
      (World.reset w).ctx.traitData = [] ∧
      (World.reset w).ctx.worldEntity = some 0 ∧
      getAliveEntities (World.reset w).ctx.entityIndex = [0] ∧
      (World.reset w).ctx.entityIndex.worldId = w.id ∧
      hasComponent (World.reset w) 0 IsExcluded = true ∧
      (World.reset w).ctx.componentRecords =
        [(IsExcluded, { bitflag := 1 })] ∧
      (World.reset w).ctx.bitflag = 2 ∧
      (World.reset w).ctx.entityMasks = [[1]] ∧
      (World.reset w).ctx.entityComponents = [(0, [IsExcluded])] ∧
      (World.reset w).components = [IsExcluded] := by
  simp [World.reset, createEntity, entAdd, registerComponent, hasComponent,
    hasIn, lookupA, getWordAt, allocateEntity, createEntityIndex,
    getAliveEntities, maskOr, padOrAux, updateA, IsExcluded, destroyEntity,
    freeEntity, removeA, entRemove, maskClear, padClearAux]

/-- The observable state after `World.destroy`: nothing is alive, the world
is uninitialized, the world entity is gone, the world id is back on the
universe's free list and the world is removed from the universe's world
list. -/
theorem destroy_post (u : Universe) (w : World) :
    (World.destroy u w).2.isInitialized = false ∧
      (World.destroy u w).2.ctx.worldEntity = none ∧
      getAliveEntities (World.destroy u w).2.ctx.entityIndex = [] ∧
      (∀ e, isEntityAlive (World.destroy u w).2.ctx.entityIndex e = false) ∧
      (World.destroy u w).1.worldIndex.freeIds =
        w.id :: u.worldIndex.freeIds ∧
      (World.destroy u w).1.worlds = u.worlds.erase w.id := by
  simp [World.destroy, World.reset, createEntity, entAdd, registerComponent,
    hasComponent, hasIn, lookupA, getWordAt, allocateEntity,
    createEntityIndex, getAliveEntities, isEntityAlive, maskOr, padOrAux,
    updateA, IsExcluded, destroyEntity, freeEntity, removeA, entRemove,
    maskClear, padClearAux, releaseWorldId]

/-- Every facade operation other than `reset` — and `destroy`, whose
clearing is its internal `World.reset` call — preserves each entry of the
query hash map. -/
theorem applyOp_preserves_qmap (u : Universe) (w : World) (op : Op)
    (hr : op ≠ Op.reset) (hd : op ≠ Op.destroy) (hash : String) (q : Query)
    (hq : lookupA w.ctx.queriesHashMap hash = some q) :
    lookupA (applyOp u w op).2.ctx.queriesHashMap hash = some q := by
  cases op with
  | spawn cs =>
    show lookupA (World.spawnW w cs).1.ctx.queriesHashMap hash = some q
    unfold World.spawnW
    rw [createEntity_qmap]
    exact hq
  | addC c =>
    show lookupA (World.addW w c).ctx.queriesHashMap hash = some q
    unfold World.addW
    cases w.ctx.worldEntity with
    | none => exact hq
    | some we =>
      rw [(entAdd_frame w we c).1]
      exact hq
  | removeC c =>
    show lookupA (World.removeW w c).ctx.queriesHashMap hash = some q
    unfold World.removeW
    cases w.ctx.worldEntity with
    | none => exact hq
    | some we =>
      rw [(entRemove_frame w we c).1]
      exact hq
  | setC c v =>
    show lookupA (World.setW w c v).ctx.queriesHashMap hash = some q
    unfold World.setW
    cases w.ctx.worldEntity with
    | none => exact hq
    | some we =>
      rw [(entSet_frame w we c v).1]
      exact hq
  | query ps =>
    show lookupA (worldQuery w ps).1.ctx.queriesHashMap hash = some q
    unfold worldQuery
    cases hl : lookupA w.ctx.queriesHashMap (createQueryHash ps) with
    | some q2 => exact hq
    | none =>
      have hne : hash ≠ createQueryHash ps := by
        intro hh
        rw [hh, hl] at hq
        exact absurd hq (by simp)
      show lookupA ((createQueryHash ps,
          ({ id := w.ctx.nextQueryId, parameters := ps } : Query)) ::
          w.ctx.queriesHashMap) hash = some q
      rw [lookupA_cons, if_neg hne]
      exact hq
  | queryKey s =>
    show lookupA (worldQueryKey w s).1.ctx.queriesHashMap hash = some q
    unfold worldQueryKey
    cases lookupA w.ctx.queriesHashMap s with
    | none => exact hq
    | some q2 => exact hq
  | subscribe ps =>
    show lookupA (worldSubscribe w ps).ctx.queriesHashMap hash = some q
    unfold worldSubscribe
    cases hl : lookupA w.ctx.queriesHashMap (createQueryHash ps) with
    | some q2 => exact hq
    | none =>
      have hne : hash ≠ createQueryHash ps := by
        intro hh
        rw [hh, hl] at hq
        exact absurd hq (by simp)
      show lookupA ((createQueryHash ps,
          ({ id := w.ctx.nextQueryId, parameters := ps } : Query)) ::
          w.ctx.queriesHashMap) hash = some q
      rw [lookupA_cons, if_neg hne]
      exact hq
  | reset => exact absurd rfl hr
  | destroy => exact absurd rfl hd

/-! ## Claim theorems -/

/-- C1. The first `world.query` call with a given parameter list creates a
`Query`, stores it in the world's query hash map under the canonical hash
of the parameters, and returns its run result; every later call whose
parameters hash to the same key reuses that same cached `Query` and leaves
the cache unchanged; every facade operation except `reset` (and `destroy`,
which clears by calling `World.reset` internally) preserves the entry, and
`reset` empties the query hash map. -/
theorem worldQuery_lazy_cache (w : World) (ps : List Nat)
    (hnone : lookupA w.ctx.queriesHashMap (createQueryHash ps) = none) :
    ∃ q : Query,
      lookupA (worldQuery w ps).1.ctx.queriesHashMap (createQueryHash ps) =
        some q ∧
      q.parameters = ps ∧
      (worldQuery w ps).2 = queryRun q (worldQuery w ps).1 ∧
      (∀ w2 ps2, createQueryHash ps2 = createQueryHash ps →
        lookupA w2.ctx.queriesHashMap (createQueryHash ps) = some q →
        worldQuery w2 ps2 = (w2, queryRun q w2)) ∧
      (∀ u w2 op, op ≠ Op.reset → op ≠ Op.destroy →
        lookupA w2.ctx.queriesHashMap (createQueryHash ps) = some q →
        lookupA (applyOp u w2 op).2.ctx.queriesHashMap (createQueryHash ps) =
          some q) ∧
      (∀ w2, (World.reset w2).ctx.queriesHashMap = []) := by
  have hstep : worldQuery w ps =
      ({ w with ctx := { w.ctx with
          queriesHashMap := (createQueryHash ps,
            ({ id := w.ctx.nextQueryId, parameters := ps } : Query)) ::
              w.ctx.queriesHashMap,
          queries := ({ id := w.ctx.nextQueryId, parameters := ps } : Query)
            :: w.ctx.queries,
          nextQueryId := w.ctx.nextQueryId + 1 } },
        queryRun { id := w.ctx.nextQueryId, parameters := ps }
          { w with ctx := { w.ctx with
            queriesHashMap := (createQueryHash ps,
              ({ id := w.ctx.nextQueryId, parameters := ps } : Query)) ::
                w.ctx.queriesHashMap,
            queries := ({ id := w.ctx.nextQueryId, parameters := ps } :
              Query) :: w.ctx.queries,
            nextQueryId := w.ctx.nextQueryId + 1 } }) := by
    unfold worldQuery
    rw [hnone]
  refine ⟨{ id := w.ctx.nextQueryId, parameters := ps }, ?_, rfl, ?_, ?_,
    ?_, ?_⟩
  · rw [hstep]
    simp
  · rw [hstep]
  · intro w2 ps2 hh hsome
    unfold worldQuery
    rw [hh, hsome]
  · intro u w2 op hr hd hsome
    exact applyOp_preserves_qmap u w2 op hr hd _ _ hsome
  · intro w2
    exact (reset_post w2).2.2.1

/-- Witness for C1 at the freshly created world `w0` and parameter list
`[1]`. -/
theorem worldQuery_lazy_cache_witness :
    lookupA w0.ctx.queriesHashMap (createQueryHash [1]) = none ∧
    (∃ q : Query,
      lookupA (worldQuery w0 [1]).1.ctx.queriesHashMap
        (createQueryHash [1]) = some q ∧
      q.parameters = [1] ∧
      (worldQuery w0 [1]).2 = queryRun q (worldQuery w0 [1]).1 ∧
      (∀ w2 ps2, createQueryHash ps2 = createQueryHash [1] →
        lookupA w2.ctx.queriesHashMap (createQueryHash [1]) = some q →
        worldQuery w2 ps2 = (w2, queryRun q w2)) ∧
      (∀ u w2 op, op ≠ Op.reset → op ≠ Op.destroy →
        lookupA w2.ctx.queriesHashMap (createQueryHash [1]) = some q →
        lookupA (applyOp u w2 op).2.ctx.queriesHashMap
          (createQueryHash [1]) = some q) ∧
      (∀ w2, (World.reset w2).ctx.queriesHashMap = [])) :=
  ⟨by decide, worldQuery_lazy_cache w0 [1] (by decide)⟩

/-- C5. The distinguished world entity is created carrying `IsExcluded`
both by `init` (on an uninitialized world with well-formed bitflags) and by
`reset`, and an entity carrying `IsExcluded` is never contained in any
query's run result. -/
theorem worldEntity_excluded (u : Universe) (w : World)
    (cs : List Component) (hinit : w.isInitialized = false)
    (hwf : WFBitflags w) :
    (∃ we, (World.init u w cs).2.ctx.worldEntity = some we ∧
      hasComponent (World.init u w cs).2 we IsExcluded = true) ∧
    (∀ w2, (World.reset w2).ctx.worldEntity = some 0 ∧
      hasComponent (World.reset w2) 0 IsExcluded = true) ∧
    (∀ w2 q we, w2.ctx.worldEntity = some we →
      hasComponent w2 we IsExcluded = true → we ∉ queryRun q w2) := by
  have hbody : World.init u w cs = initBody u w cs := by
    unfold World.init
    rw [hinit]
    simp
  have hrec : (initW3 u w).ctx.componentRecords = w.ctx.componentRecords := by
    unfold initW3
    rw [foldl_preserves (fun acc (p : String × List Nat) =>
        addCachedQuery acc p.1 p.2)
      (fun w2 => w2.ctx.componentRecords) (fun w2 p => rfl)]
    rw [foldl_preserves (fun acc (i : Nat) => setTrackingMasks acc i)
      (fun w2 => w2.ctx.componentRecords) (fun w2 i => rfl)]
  have hbf : (initW3 u w).ctx.bitflag = w.ctx.bitflag := by
    unfold initW3
    rw [foldl_preserves (fun acc (p : String × List Nat) =>
        addCachedQuery acc p.1 p.2)
      (fun w2 => w2.ctx.bitflag) (fun w2 p => rfl)]
    rw [foldl_preserves (fun acc (i : Nat) => setTrackingMasks acc i)
      (fun w2 => w2.ctx.bitflag) (fun w2 i => rfl)]
  refine ⟨?_, ?_, ?_⟩
  · refine ⟨(createEntity (initW3 u w) (IsExcluded :: cs)).2, ?_, ?_⟩
    · rw [hbody]
      rfl
    · rw [hbody]
      show hasComponent
        { (createEntity (initW3 u w) (IsExcluded :: cs)).1 with
          ctx := { (createEntity (initW3 u w) (IsExcluded :: cs)).1.ctx with
            worldEntity :=
              some (createEntity (initW3 u w) (IsExcluded :: cs)).2 } }
        (createEntity (initW3 u w) (IsExcluded :: cs)).2 IsExcluded = true
      rw [hasComponent_set_worldEntity]
      exact createEntity_has_head (initW3 u w) IsExcluded cs
        (WF_transport hbf hrec hwf)
  · intro w2
    obtain ⟨h1, h2, h3, h4, h5, h6, h7, h8, h9, h10, h11, h12, h13, h14,
      h15, h16, h17, h18, h19, h20⟩ := reset_post w2
    exact ⟨h12, h15⟩
  · intro w2 q we h1 h2
    exact queryRun_excluded w2 q we h2

/-- Witness for C5 at the empty universe and a fresh uninitialized world. -/
theorem worldEntity_excluded_witness :
    (base0.isInitialized = false ∧ WFBitflags base0) ∧
    ((∃ we, (World.init u0 base0 []).2.ctx.worldEntity = some we ∧
      hasComponent (World.init u0 base0 []).2 we IsExcluded = true) ∧
    (∀ w2, (World.reset w2).ctx.worldEntity = some 0 ∧
      hasComponent (World.reset w2) 0 IsExcluded = true) ∧
    (∀ w2 q we, w2.ctx.worldEntity = some we →
      hasComponent w2 we IsExcluded = true → we ∉ queryRun q w2)) :=
  ⟨⟨by decide, ⟨by decide, fun p hp => absurd hp (by simp [base0, emptyCtx])⟩⟩,
    worldEntity_excluded u0 base0 [] (by decide)
      ⟨by decide, fun p hp => absurd hp (by simp [base0, emptyCtx])⟩⟩

/-- C6 (amended). After `world.reset()` the world id and the initialization
flag are unchanged; a fresh entity index was created and the queries, query
hash map, dirty queries, not-queries, relation target entities, tracking
snapshots, dirty masks, changed masks and trait data are all empty; a new
world entity carrying `IsExcluded` was created from that cleared state, so
the final state also reflects that creation: the entity index holds exactly
the world entity, `IsExcluded` is registered as the only component record
with bitflag 1, the next bitflag is 2 (not 1), and the world entity's mask
bit is set (entityMasks is `[[1]]`, not `[[]]`). -/
theorem reset_state (w : World) :
    (World.reset w).id = w.id ∧
      (World.reset w).isInitialized = w.isInitialized ∧
      (World.reset w).ctx.queriesHashMap = [] ∧
      (World.reset w).ctx.queries = [] ∧
      (World.reset w).ctx.dirtyQueries = [] ∧
      (World.reset w).ctx.notQueries = [] ∧
      (World.reset w).ctx.relationTargetEntities = [] ∧
      (World.reset w).ctx.trackingSnapshots = [] ∧
      (World.reset w).ctx.dirtyMasks = [] ∧
      (World.reset w).ctx.changedMasks = [] ∧
      (World.reset w).ctx.traitData = [] ∧
      (World.reset w).ctx.worldEntity = some 0 ∧
      getAliveEntities (World.reset w).ctx.entityIndex = [0] ∧
      (World.reset w).ctx.entityIndex.worldId = w.id ∧
      hasComponent (World.reset w) 0 IsExcluded = true ∧
      (World.reset w).ctx.componentRecords =
        [(IsExcluded, { bitflag := 1 })] ∧
      (World.reset w).ctx.bitflag = 2 ∧
      (World.reset w).ctx.entityMasks = [[1]] ∧
      (World.reset w).ctx.entityComponents = [(0, [IsExcluded])] ∧
      (World.reset w).components = [IsExcluded] :=
  reset_post w

/-- Counterexample to C6 as stated: on the concrete world `w0`, after
`reset` the bitflag is 2 (not 1), the component-record map is not empty and
`entityMasks` is not `[[]]`, because the new world entity's `IsExcluded`
registration runs after the clears. -/
theorem reset_state_counterexample :
    ¬((World.reset w0).ctx.bitflag = 1 ∧
      (World.reset w0).ctx.componentRecords = [] ∧
      (World.reset w0).ctx.entityMasks = [[]]) := by
  decide

/-- C7. `world.destroy()` on an initialized world leaves no entity alive,
releases the world id back to the process-wide world index, removes the
world from the universe's world list, destroys the world entity, and leaves
the world uninitialized. -/
theorem destroy_spec (u : Universe) (w : World)
    (hinit : w.isInitialized = true) (hcount : u.worlds.count w.id ≤ 1) :
    (∀ e, isEntityAlive (World.destroy u w).2.ctx.entityIndex e = false) ∧
      getAliveEntities (World.destroy u w).2.ctx.entityIndex = [] ∧
      (World.destroy u w).2.isInitialized = false ∧
      (World.destroy u w).2.ctx.worldEntity = none ∧
      w.id ∈ (World.destroy u w).1.worldIndex.freeIds ∧
      w.id ∉ (World.destroy u w).1.worlds := by
  obtain ⟨h1, h2, h3, h4, h5, h6⟩ := destroy_post u w
  refine ⟨h4, h3, h1, h2, ?_, ?_⟩
  · rw [h5]
    exact List.mem_cons_self _ _
  · rw [h6]
    intro hmem
    have hc : (u.worlds.erase w.id).count w.id = u.worlds.count w.id - 1 :=
      List.count_erase_self w.id u.worlds
    have hz : (u.worlds.erase w.id).count w.id = 0 := by omega
    exact absurd hmem (List.count_eq_zero.mp hz)

/-- Witness for C7 at the one-world universe `u1` and its world `w0`. -/
theorem destroy_spec_witness :
    (w0.isInitialized = true ∧ u1.worlds.count w0.id ≤ 1) ∧
    ((∀ e, isEntityAlive (World.destroy u1 w0).2.ctx.entityIndex e = false) ∧
      getAliveEntities (World.destroy u1 w0).2.ctx.entityIndex = [] ∧
      (World.destroy u1 w0).2.isInitialized = false ∧
      (World.destroy u1 w0).2.ctx.worldEntity = none ∧
      w0.id ∈ (World.destroy u1 w0).1.worldIndex.freeIds ∧
      w0.id ∉ (World.destroy u1 w0).1.worlds) :=
  ⟨⟨by decide, by decide⟩, destroy_spec u1 w0 (by decide) (by decide)⟩

/-- C8. The world-level trait operations delegate to the distinguished
world entity, and the entity overload of `world.has` checks aliveness in
the world's entity index. -/
theorem world_ops_delegate (w : World) (we e : Nat) (c : Component)
    (v : Int) (h : w.ctx.worldEntity = some we) :
    World.addW w c = entAdd w we c ∧
      World.removeW w c = entRemove w we c ∧
      World.getW w c = entGet w we c ∧
      World.setW w c v = entSet w we c v ∧
      World.hasW w (HasArg.comp c) = hasComponent w we c ∧
      World.hasW w (HasArg.ent e) = isEntityAlive w.ctx.entityIndex e := by
  refine ⟨?_, ?_, ?_, ?_, ?_, rfl⟩
  · unfold World.addW
    rw [h]
  · unfold World.removeW
    rw [h]
  · unfold World.getW
    rw [h]
  · unfold World.setW
    rw [h]
  · unfold World.hasW
    rw [h]

/-- Witness for C8 at the concrete world `w0`. -/
theorem world_ops_delegate_witness :
    w0.ctx.worldEntity = some 0 ∧
    (World.addW w0 5 = entAdd w0 0 5 ∧
      World.removeW w0 5 = entRemove w0 0 5 ∧
      World.getW w0 5 = entGet w0 0 5 ∧
      World.setW w0 5 3 = entSet w0 0 5 3 ∧
      World.hasW w0 (HasArg.comp 5) = hasComponent w0 0 5 ∧
      World.hasW w0 (HasArg.ent 0) =
        isEntityAlive w0.ctx.entityIndex 0) :=
  ⟨by decide, world_ops_delegate w0 0 0 5 3 (by decide)⟩

/-- C9. The string-key overload of `world.query` returns the empty array
when no query is cached under the key, creating nothing and leaving the
world (in particular the query cache) unchanged. -/
theorem queryKey_missing (w : World) (key : String)
    (h : lookupA w.ctx.queriesHashMap key = none) :
    worldQueryKey w key = (w, []) := by
  unfold worldQueryKey
  rw [h]

/-- Witness for C9 at the concrete world `w0` and key `"k"`. -/
theorem queryKey_missing_witness :
    lookupA w0.ctx.queriesHashMap "k" = none ∧
    worldQueryKey w0 "k" = (w0, []) :=
  ⟨by decide, queryKey_missing w0 "k" (by decide)⟩

/-- C10. `world.init` on an already initialized world is a no-op: it
returns immediately, leaving the universe and the entire world state
unchanged. -/
theorem init_noop (u : Universe) (w : World) (cs : List Component)
    (h : w.isInitialized = true) : World.init u w cs = (u, w) := by
  unfold World.init
  rw [h]
  simp

/-- Witness for C10 at the initialized world `w0`. -/
theorem init_noop_witness :
    w0.isInitialized = true ∧ World.init u1 w0 [] = (u1, w0) :=
  ⟨by decide, init_noop u1 w0 [] (by decide)⟩

end Koota
